import Mathlib

/-! Verification development for the webnews relay server (server.js): an HTTP
proxy endpoint that filters upstream response headers and injects a base tag
into HTML bodies, and a WebSocket relay that groups connections into rooms and
fans messages between controller and viewer connections. -/

namespace WebNews

/-- Lowercases a string character by character, modelling JavaScript
toLowerCase as applied to ASCII header names. -/
def lowerStr (s : String) : String :=
  String.mk (s.data.map Char.toLower)

/-- The headersToSkip deny list of the proxy handler. -/
def headersToSkip : List String :=
  ["x-frame-options", "content-security-policy",
   "content-security-policy-report-only", "strict-transport-security",
   "content-encoding", "transfer-encoding"]

/-- Models res.setHeader: setting a header replaces any existing header with
the same case-insensitive name. -/
def setHeader (hs : List (String × String)) (name value : String) :
    List (String × String) :=
  hs.filter (fun q => lowerStr q.1 != lowerStr name) ++ [(name, value)]

/-- One iteration of the resp.headers.forEach copy loop of the proxy handler:
deny-listed names are skipped, every other header is copied with
res.setHeader. -/
def copyStep (acc : List (String × String)) (p : String × String) :
    List (String × String) :=
  if headersToSkip.contains (lowerStr p.1) then acc else setHeader acc p.1 p.2

/-- The full header copy loop of the proxy handler, starting from an empty
outbound header set. -/
def copyHeaders (src : List (String × String)) : List (String × String) :=
  src.foldl copyStep []

/-- Models resp.headers.get: case-insensitive lookup of a header value. -/
def headersGet (hs : List (String × String)) (name : String) : Option String :=
  (hs.find? (fun p => lowerStr p.1 == lowerStr name)).map (fun p => p.2)

/-- A header entry whose name is not on the deny list. -/
def allowedHeader (p : String × String) : Bool :=
  !(headersToSkip.contains (lowerStr p.1))

/-- Does the first list start with the second one? -/
def startsWithL : List Char → List Char → Bool
  | _, [] => true
  | [], _ :: _ => false
  | c :: cs, p :: ps => c == p && startsWithL cs ps

/-- Models String.prototype.includes: the pattern occurs contiguously
somewhere in the string. -/
def containsSub (pat : List Char) : List Char → Bool
  | [] => startsWithL [] pat
  | c :: rest => startsWithL (c :: rest) pat || containsSub pat rest

/-- The literal matched case-insensitively at the start of the opening
head-tag pattern used by the proxy handler. -/
def headLit : List Char := ['<', 'h', 'e', 'a', 'd']

/-- Scans up to and including the first closing angle bracket, mirroring the
attribute part of the head-tag pattern: zero or more characters other than a
closing angle bracket, then the closing angle bracket itself. -/
def scanToGt : List Char → Option (List Char × List Char)
  | [] => none
  | c :: rest =>
    if c = '>' then some ([c], rest)
    else
      match scanToGt rest with
      | some (t, a) => some (c :: t, a)
      | none => none

/-- Tries to match the opening head-tag pattern at the start of s, returning
the matched tag text and the remaining input. -/
def matchAt (s : List Char) : Option (List Char × List Char) :=
  if (s.take 5).map Char.toLower = headLit then
    match scanToGt (s.drop 5) with
    | some (t, a) => some (s.take 5 ++ t, a)
    | none => none
  else none

/-- The text inserted right after the matched head tag: a newline, the base
element carrying the target origin, and a newline. -/
def baseIns (origin : List Char) : List Char :=
  '\n' :: ("<base href=\"".data ++ origin ++ ("\">".data ++ ['\n']))

/-- String.prototype.replace with a non-global pattern: only the first, that
is leftmost, match is replaced, and the replacement keeps the matched tag
followed by the inserted text. -/
def injectAux (ins : List Char) : List Char → List Char
  | [] => []
  | c :: rest =>
    match matchAt (c :: rest) with
    | some (t, a) => t ++ (ins ++ a)
    | none => c :: injectAux ins rest

/-- The base-injection rewrite the proxy handler applies to HTML bodies. -/
def injectBase (body origin : List Char) : List Char :=
  injectAux (baseIns origin) body

/-- Does the head-tag pattern match anywhere in the body? -/
def hasHeadTag : List Char → Bool
  | [] => false
  | c :: rest => (matchAt (c :: rest)).isSome || hasHeadTag rest

/-- Upstream response as observed by the proxy handler: status code, header
entries in iteration order, and the decoded body. -/
structure UpstreamResponse where
  status : Nat
  headers : List (String × String)
  body : List Char
deriving DecidableEq

/-- Outcome of constructing a URL from the url query parameter: the origin of
the parsed URL, or the message of the thrown type error. -/
inductive ParseOutcome where
  | ok (origin : String)
  | fail (msg : String)

/-- Outcome of the outbound fetch: an upstream response, or the message of the
network error that was thrown. -/
inductive FetchOutcome where
  | ok (resp : UpstreamResponse)
  | fail (msg : String)

/-- The response the proxy handler produces for the caller. -/
structure HttpResponse where
  status : Nat
  headers : List (String × String)
  body : List Char

/-- Message of the type error a fetch response body throws when it is read a
second time after resp.text() already consumed it. -/
def bodyUnusableMsg : String := "Body is unusable"

/-- The GET /proxy handler, as a function of the url query parameter, of the
outcome of URL parsing and of the outcome of the outbound fetch. A missing or
empty parameter is rejected with 400; a URL parse failure or a fetch failure
is caught and answered with 502. On success the upstream headers are copied
through the deny-list filter, the content type is set explicitly, and the
body (already consumed once by resp.text()) is either rewritten and sent for
HTML content types, or, for every other content type, read a second time via
resp.arrayBuffer(), which throws the body-unusable type error that the catch
turns into a 502. -/
def proxyHandler (queryUrl : Option String) (parsed : ParseOutcome)
    (fetched : FetchOutcome) : HttpResponse :=
  match queryUrl with
  | none => ⟨400, [], "Missing \x27url\x27 query parameter.".data⟩
  | some target =>
    if target = "" then ⟨400, [], "Missing \x27url\x27 query parameter.".data⟩
    else
      match parsed with
      | ParseOutcome.fail m => ⟨502, [], ("Proxy fetch failed: " ++ m).data⟩
      | ParseOutcome.ok origin =>
        match fetched with
        | FetchOutcome.fail m => ⟨502, [], ("Proxy fetch failed: " ++ m).data⟩
        | FetchOutcome.ok resp =>
          let copied := copyHeaders resp.headers
          let contentType :=
            (headersGet resp.headers "content-type").getD "text/html; charset=utf-8"
          let outHeaders := setHeader copied "Content-Type" contentType
          if containsSub "text/html".data contentType.data then
            ⟨200, outHeaders, injectBase resp.body origin.data⟩
          else
            ⟨502, outHeaders, ("Proxy fetch failed: " ++ bodyUnusableMsg).data⟩

/-- A WebSocket connection as classified on upgrade: a numeric identity, the
declared type query parameter (after its controller default), and the room
key (after its default). -/
structure Conn where
  id : Nat
  type : String
  roomId : String
deriving DecidableEq

/-- A room: the two membership sets, as insertion-ordered duplicate-free
lists. -/
structure Room where
  viewers : List Nat
  controllers : List Nat
deriving DecidableEq

/-- The rooms map, keyed by room id. -/
abbrev Registry := String → Option Room

def emptyRegistry : Registry := fun _ => none

def lookupRoom (R : Registry) (rid : String) : Option Room := R rid

def setRoom (R : Registry) (rid : String) (r : Room) : Registry :=
  fun k => if k = rid then some r else R k

def removeRoom (R : Registry) (rid : String) : Registry :=
  fun k => if k = rid then none else R k

/-- Set.add: appends the element unless it is already present. -/
def addId (l : List Nat) (i : Nat) : List Nat :=
  if i ∈ l then l else l ++ [i]

/-- Set.delete: removes the element. -/
def removeId (l : List Nat) (i : Nat) : List Nat :=
  l.filter (fun x => x != i)

/-- Adds the connection to the role-appropriate set: the viewers set when the
declared type is viewer, the controllers set otherwise. -/
def joinRoom (room : Room) (c : Conn) : Room :=
  if c.type = "viewer" then { room with viewers := addId room.viewers c.id }
  else { room with controllers := addId room.controllers c.id }

/-- Removes the connection from the role-appropriate set. -/
def leaveRoom (room : Room) (c : Conn) : Room :=
  if c.type = "viewer" then { room with viewers := removeId room.viewers c.id }
  else { room with controllers := removeId room.controllers c.id }

/-- The connection handler: ensureRoom followed by joining the role-matching
membership set of the room. -/
def connect (R : Registry) (c : Conn) : Registry :=
  setRoom R c.roomId (joinRoom ((lookupRoom R c.roomId).getD ⟨[], []⟩) c)

/-- The close handler: leave the membership set, then delete the room when
both sets became empty. The none case is unreachable for real connection
lifecycles, where a room always exists while one of its members is still
registered. -/
def disconnect (R : Registry) (c : Conn) : Registry :=
  match lookupRoom R c.roomId with
  | none => R
  | some room =>
    if (leaveRoom room c).viewers.isEmpty && (leaveRoom room c).controllers.isEmpty
      then removeRoom R c.roomId
      else setRoom R c.roomId (leaveRoom room c)

/-- Connection lifecycle events observed by the room registry. -/
inductive Event where
  | join (c : Conn)
  | leave (c : Conn)

def step (R : Registry) : Event → Registry
  | Event.join c => connect R c
  | Event.leave c => disconnect R c

def applyEvents : List Event → Registry → Registry
  | [], R => R
  | e :: es, R => applyEvents es (step R e)

/-- Hexadecimal digit used by the JSON string escape. -/
def hexDigitChar (n : Nat) : Char :=
  if n < 10 then Char.ofNat (48 + n) else Char.ofNat (87 + n)

/-- JSON.stringify escaping of one character of a string value. -/
def jsonEscapeChar (c : Char) : List Char :=
  if c = '"' then ['\\', '"']
  else if c = '\\' then ['\\', '\\']
  else if c = '\n' then ['\\', 'n']
  else if c = '\r' then ['\\', 'r']
  else if c = '\t' then ['\\', 't']
  else if c = '\x08' then ['\\', 'b']
  else if c = '\x0c' then ['\\', 'f']
  else if c.toNat < 32 then
    ['\\', 'u', '0', '0', hexDigitChar (c.toNat / 16), hexDigitChar (c.toNat % 16)]
  else [c]

/-- JSON.stringify of a string value. -/
def jsonQuote (s : List Char) : List Char :=
  '"' :: s.foldr (fun c acc => jsonEscapeChar c ++ acc) ['"']

/-- The envelope JSON.stringify produces for a viewer message relayed to the
controllers of the room. -/
def viewerEnvelope (msg : String) : String :=
  String.mk ("\x7b\"from\":\"viewer\",\"payload\":".data ++ jsonQuote msg.data ++ ['\x7d'])

/-- One message delivery: recipient connection id and delivered text. -/
structure Delivery where
  dest : Nat
  payload : String
deriving DecidableEq

/-- The per-message relay of the message handler: a controller message goes
verbatim to the open viewers of the sender's room; a viewer message goes,
wrapped in the viewer envelope, to the open controllers of the room; a sender
with any other declared type matches neither branch, so nothing is
delivered. -/
def fanout (R : Registry) (isOp : Nat → Bool) (senderType senderRoom : String)
    (msg : String) : List Delivery :=
  match lookupRoom R senderRoom with
  | none => []
  | some room =>
    if senderType = "controller" then
      (room.viewers.filter isOp).map (fun i => ⟨i, msg⟩)
    else if senderType = "viewer" then
      (room.controllers.filter isOp).map (fun i => ⟨i, viewerEnvelope msg⟩)
    else []

/-- Ids of the connections that join over a trace. -/
def joinIds : List Event → List Nat
  | [] => []
  | Event.join c :: es => c.id :: joinIds es
  | Event.leave _ :: es => joinIds es

/-- Connection i is registered in room rid. -/
def inRoom (R : Registry) (i : Nat) (rid : String) : Prop :=
  ∃ r, lookupRoom R rid = some r ∧ (i ∈ r.viewers ∨ i ∈ r.controllers)

/-- Every registered connection is registered in at most one room. -/
def UniqueMembership (R : Registry) : Prop :=
  ∀ i a b, inRoom R i a → inRoom R i b → a = b

/-- Every room present in the registry has at least one member. -/
def NonEmptyRooms (R : Registry) : Prop :=
  ∀ rid r, lookupRoom R rid = some r → r.viewers ≠ [] ∨ r.controllers ≠ []

/-- Two controllers and two viewers joining room r. -/
def trC3 : List Event :=
  [Event.join ⟨1, "controller", "r"⟩, Event.join ⟨2, "controller", "r"⟩,
   Event.join ⟨3, "viewer", "r"⟩, Event.join ⟨4, "viewer", "r"⟩]

def regC3 : Registry := applyEvents trC3 emptyRegistry

/-- A connection with an unknown declared type and a viewer, both in room r. -/
def regC6 : Registry :=
  applyEvents [Event.join ⟨1, "banana", "r"⟩, Event.join ⟨2, "viewer", "r"⟩]
    emptyRegistry

/-- A controller and a viewer in room a, and a viewer in room b. -/
def trC9 : List Event :=
  [Event.join ⟨1, "controller", "a"⟩, Event.join ⟨2, "viewer", "a"⟩,
   Event.join ⟨3, "viewer", "b"⟩]

/-- Upstream image response used to evaluate the binary passthrough path. -/
def pngResp : UpstreamResponse :=
  ⟨200, [("Content-Type", "image/png"), ("X-Frame-Options", "DENY")], "PNG".data⟩

/-- Upstream JSON error page used to evaluate the status propagation path. -/
def jsonResp : UpstreamResponse :=
  ⟨404, [("content-type", "application/json")], "\x7b\x7d".data⟩

/-- Upstream HTML response with a server error status. -/
def htmlResp500 : UpstreamResponse :=
  ⟨500, [("content-type", "text/html")], "<head></head>err".data⟩

theorem scanToGt_eq {l t a : List Char} (h : scanToGt l = some (t, a)) :
    t ++ a = l := by
  induction l generalizing t a with
  | nil => simp [scanToGt] at h
  | cons c sl ih =>
    by_cases hc : c = '>'
    · rw [scanToGt, if_pos hc] at h
      obtain ⟨rfl, rfl⟩ : [c] = t ∧ sl = a := by
        have h2 := Option.some.inj h
        exact ⟨congrArg Prod.fst h2, congrArg Prod.snd h2⟩
      rfl
    · cases hrec : scanToGt sl with
      | none => rw [scanToGt, if_neg hc, hrec] at h; cases h
      | some p =>
        obtain ⟨t', a'⟩ := p
        rw [scanToGt, if_neg hc, hrec] at h
        obtain ⟨rfl, rfl⟩ : c :: t' = t ∧ a' = a := by
          have h2 := Option.some.inj h
          exact ⟨congrArg Prod.fst h2, congrArg Prod.snd h2⟩
        simpa using ih hrec

theorem matchAt_eq {s t a : List Char} (h : matchAt s = some (t, a)) :
    t ++ a = s := by
  rw [matchAt] at h
  split at h
  · cases hscan : scanToGt (s.drop 5) with
    | none => rw [hscan] at h; cases h
    | some p =>
      obtain ⟨t', a'⟩ := p
      rw [hscan] at h
      obtain ⟨rfl, rfl⟩ : s.take 5 ++ t' = t ∧ a' = a := by
        have h2 := Option.some.inj h
        exact ⟨congrArg Prod.fst h2, congrArg Prod.snd h2⟩
      have h3 : t' ++ a' = s.drop 5 := scanToGt_eq hscan
      rw [List.append_assoc, h3, List.take_append_drop]
  · cases h

theorem injectAux_id (ins body : List Char) (h : hasHeadTag body = false) :
    injectAux ins body = body := by
  induction body with
  | nil => rfl
  | cons c rest ih =>
    cases hm : matchAt (c :: rest) with
    | some p =>
      exfalso
      have h2 : hasHeadTag (c :: rest) = true := by simp [hasHeadTag, hm]
      rw [h] at h2
      exact Bool.false_ne_true h2
    | none =>
      have h' : hasHeadTag rest = false := by
        have h2 := h
        simp only [hasHeadTag, hm, Option.isSome_none, Bool.false_or] at h2
        exact h2
      simp only [injectAux, hm]
      rw [ih h']

theorem injectAux_first (ins body : List Char) (h : hasHeadTag body = true) :
    ∃ pre t a, body = pre ++ (t ++ a) ∧
      injectAux ins body = pre ++ (t ++ (ins ++ a)) ∧
      (∀ i, i < pre.length → matchAt (body.drop i) = none) ∧
      matchAt (t ++ a) = some (t, a) := by
  induction body with
  | nil => simp [hasHeadTag] at h
  | cons c rest ih =>
    cases hm : matchAt (c :: rest) with
    | some p =>
      obtain ⟨t, a⟩ := p
      have heq : t ++ a = c :: rest := matchAt_eq hm
      refine ⟨[], t, a, by simp [heq], ?_, ?_, ?_⟩
      · simp only [injectAux, hm]
        simp
      · intro i hi
        simp at hi
      · rw [heq]
        exact hm
    | none =>
      have h' : hasHeadTag rest = true := by
        have h2 := h
        simp only [hasHeadTag, hm, Option.isSome_none, Bool.false_or] at h2
        exact h2
      obtain ⟨pre, t, a, hb, hrw, hfirst, hmm⟩ := ih h'
      refine ⟨c :: pre, t, a, by simp [hb], ?_, ?_, hmm⟩
      · simp only [injectAux, hm]
        rw [hrw]
        simp
      · intro i hi
        cases i with
        | zero => simpa using hm
        | succ j =>
          have hj : j < pre.length := by simpa using hi
          simpa using hfirst j hj

theorem all_allowed_setHeader (acc : List (String × String)) (name value : String)
    (hacc : acc.all allowedHeader = true) (hn : allowedHeader (name, value) = true) :
    (setHeader acc name value).all allowedHeader = true := by
  rw [List.all_eq_true] at hacc ⊢
  intro x hx
  rw [setHeader] at hx
  rcases List.mem_append.1 hx with h1 | h1
  · exact hacc x (List.mem_of_mem_filter h1)
  · rw [List.mem_singleton] at h1
    subst h1
    exact hn

theorem all_allowed_copyHeaders (src : List (String × String)) :
    (copyHeaders src).all allowedHeader = true := by
  have key : ∀ acc, acc.all allowedHeader = true →
      (src.foldl copyStep acc).all allowedHeader = true := by
    induction src with
    | nil => intro acc h; exact h
    | cons p ps ih =>
      intro acc hacc
      rw [List.foldl_cons]
      apply ih
      rw [copyStep]
      split
      · exact hacc
      · rename_i hskip
        apply all_allowed_setHeader _ _ _ hacc
        have hfalse : headersToSkip.contains (lowerStr p.1) = false := by
          revert hskip
          cases headersToSkip.contains (lowerStr p.1) <;> simp
        show (!(headersToSkip.contains (lowerStr p.1))) = true
        rw [hfalse]
        rfl
  exact key [] rfl

theorem allowedHeader_contentType (v : String) :
    allowedHeader ("Content-Type", v) = true :=
  show !(headersToSkip.contains (lowerStr "Content-Type")) = true by decide

theorem lookup_setRoom_self (R : Registry) (rid : String) (r : Room) :
    lookupRoom (setRoom R rid r) rid = some r := by
  simp [lookupRoom, setRoom]

theorem lookup_setRoom_ne (R : Registry) (rid k : String) (r : Room) (h : k ≠ rid) :
    lookupRoom (setRoom R rid r) k = lookupRoom R k := by
  simp [lookupRoom, setRoom, h]

theorem lookup_removeRoom_self (R : Registry) (rid : String) :
    lookupRoom (removeRoom R rid) rid = none := by
  simp [lookupRoom, removeRoom]

theorem lookup_removeRoom_ne (R : Registry) (rid k : String) (h : k ≠ rid) :
    lookupRoom (removeRoom R rid) k = lookupRoom R k := by
  simp [lookupRoom, removeRoom, h]

theorem mem_addId {l : List Nat} {i j : Nat} (h : j ∈ addId l i) : j = i ∨ j ∈ l := by
  rw [addId] at h
  split at h
  · exact Or.inr h
  · rcases List.mem_append.1 h with h1 | h1
    · exact Or.inr h1
    · exact Or.inl (List.mem_singleton.1 h1)

theorem self_mem_addId (l : List Nat) (i : Nat) : i ∈ addId l i := by
  rw [addId]
  split
  · assumption
  · exact List.mem_append.2 (Or.inr (List.mem_singleton.2 rfl))

theorem addId_ne_nil (l : List Nat) (i : Nat) : addId l i ≠ [] := by
  rw [addId]
  split
  · exact List.ne_nil_of_mem (by assumption)
  · simp

theorem mem_removeId {l : List Nat} {i j : Nat} (h : j ∈ removeId l i) : j ∈ l :=
  List.mem_of_mem_filter h

theorem ne_nil_of_isEmpty_false {l : List Nat} (h : l.isEmpty = false) : l ≠ [] := by
  cases l
  · simp [List.isEmpty] at h
  · simp

theorem and_false_cases {a b : Bool} (h : (a && b) = false) :
    a = false ∨ b = false := by
  cases a
  · exact Or.inl rfl
  · cases b
    · exact Or.inr rfl
    · simp at h

theorem mem_joinRoom {room : Room} {c : Conn} {j : Nat}
    (h : j ∈ (joinRoom room c).viewers ∨ j ∈ (joinRoom room c).controllers) :
    j = c.id ∨ (j ∈ room.viewers ∨ j ∈ room.controllers) := by
  rw [joinRoom] at h
  split at h
  · rcases h with h | h
    · rcases mem_addId h with h1 | h1
      · exact Or.inl h1
      · exact Or.inr (Or.inl h1)
    · exact Or.inr (Or.inr h)
  · rcases h with h | h
    · exact Or.inr (Or.inl h)
    · rcases mem_addId h with h1 | h1
      · exact Or.inl h1
      · exact Or.inr (Or.inr h1)

theorem mem_leaveRoom {room : Room} {c : Conn} {j : Nat}
    (h : j ∈ (leaveRoom room c).viewers ∨ j ∈ (leaveRoom room c).controllers) :
    j ∈ room.viewers ∨ j ∈ room.controllers := by
  rw [leaveRoom] at h
  split at h
  · rcases h with h | h
    · exact Or.inl (mem_removeId h)
    · exact Or.inr h
  · rcases h with h | h
    · exact Or.inl h
    · exact Or.inr (mem_removeId h)

theorem inRoom_connect {R : Registry} {c : Conn} {j : Nat} {rid : String}
    (h : inRoom (connect R c) j rid) :
    (j = c.id ∧ rid = c.roomId) ∨ inRoom R j rid := by
  obtain ⟨r, hr, hmem⟩ := h
  by_cases hrid : rid = c.roomId
  · subst hrid
    have hl : lookupRoom (connect R c) c.roomId =
        some (joinRoom ((lookupRoom R c.roomId).getD ⟨[], []⟩) c) :=
      lookup_setRoom_self R c.roomId _
    rw [hl] at hr
    obtain rfl := Option.some.inj hr
    rcases mem_joinRoom hmem with h1 | h1
    · exact Or.inl ⟨h1, rfl⟩
    · cases hRc : lookupRoom R c.roomId with
      | none =>
        rw [hRc] at h1
        simp at h1
      | some o =>
        rw [hRc] at h1
        exact Or.inr ⟨o, hRc, by simpa using h1⟩
  · right
    rw [connect] at hr
    rw [lookup_setRoom_ne _ _ _ _ hrid] at hr
    exact ⟨r, hr, hmem⟩

theorem inRoom_disconnect {R : Registry} {c : Conn} {j : Nat} {rid : String}
    (h : inRoom (disconnect R c) j rid) : inRoom R j rid := by
  obtain ⟨r, hr, hmem⟩ := h
  cases hRc : lookupRoom R c.roomId with
  | none =>
    have hd : disconnect R c = R := by simp [disconnect, hRc]
    rw [hd] at hr
    exact ⟨r, hr, hmem⟩
  | some room =>
    by_cases he : ((leaveRoom room c).viewers.isEmpty &&
        (leaveRoom room c).controllers.isEmpty) = true
    · have hd : disconnect R c = removeRoom R c.roomId := by
        simp [disconnect, hRc, he]
      rw [hd] at hr
      by_cases hrid : rid = c.roomId
      · subst hrid
        rw [lookup_removeRoom_self] at hr
        cases hr
      · rw [lookup_removeRoom_ne _ _ _ hrid] at hr
        exact ⟨r, hr, hmem⟩
    · have he' : ((leaveRoom room c).viewers.isEmpty &&
          (leaveRoom room c).controllers.isEmpty) = false := by
        revert he
        cases ((leaveRoom room c).viewers.isEmpty &&
          (leaveRoom room c).controllers.isEmpty) <;> simp
      have hd : disconnect R c = setRoom R c.roomId (leaveRoom room c) := by
        simp [disconnect, hRc, he']
      rw [hd] at hr
      by_cases hrid : rid = c.roomId
      · subst hrid
        rw [lookup_setRoom_self] at hr
        obtain rfl := Option.some.inj hr
        exact ⟨room, hRc, mem_leaveRoom hmem⟩
      · rw [lookup_setRoom_ne _ _ _ _ hrid] at hr
        exact ⟨r, hr, hmem⟩

theorem not_inRoom_connect {R : Registry} {c : Conn} {j : Nat} {rid : String}
    (hj : j ≠ c.id) (h : ¬ inRoom R j rid) : ¬ inRoom (connect R c) j rid := by
  intro h2
  rcases inRoom_connect h2 with ⟨h3, _⟩ | h3
  · exact hj h3
  · exact h h3

theorem not_inRoom_disconnect {R : Registry} {c : Conn} {j : Nat} {rid : String}
    (h : ¬ inRoom R j rid) : ¬ inRoom (disconnect R c) j rid :=
  fun h2 => h (inRoom_disconnect h2)

theorem um_connect {R : Registry} {c : Conn} (hum : UniqueMembership R)
    (hfresh : ∀ rid, ¬ inRoom R c.id rid) : UniqueMembership (connect R c) := by
  intro i a b ha hb
  rcases inRoom_connect ha with ⟨hia, hra⟩ | ha'
  · rcases inRoom_connect hb with ⟨hib, hrb⟩ | hb'
    · rw [hra, hrb]
    · exact absurd (hia ▸ hb') (hfresh b)
  · rcases inRoom_connect hb with ⟨hib, hrb⟩ | hb'
    · exact absurd (hib ▸ ha') (hfresh a)
    · exact hum i a b ha' hb'

theorem um_disconnect {R : Registry} {c : Conn} (hum : UniqueMembership R) :
    UniqueMembership (disconnect R c) :=
  fun i a b ha hb => hum i a b (inRoom_disconnect ha) (inRoom_disconnect hb)

theorem um_applyEvents (tr : List Event) :
    ∀ R : Registry, (joinIds tr).Nodup →
      (∀ j ∈ joinIds tr, ∀ rid, ¬ inRoom R j rid) →
      UniqueMembership R → UniqueMembership (applyEvents tr R) := by
  induction tr with
  | nil => intro R _ _ h; exact h
  | cons e es ih =>
    intro R hnd hfresh hum
    cases e with
    | join c =>
      have hnd0 : (c.id :: joinIds es).Nodup := by simpa [joinIds] using hnd
      have hcid : c.id ∉ joinIds es := (List.nodup_cons.1 hnd0).1
      have hnd' : (joinIds es).Nodup := (List.nodup_cons.1 hnd0).2
      refine ih (connect R c) hnd' ?_ ?_
      · intro j hj rid
        apply not_inRoom_connect
        · intro hjc
          exact hcid (hjc ▸ hj)
        · exact hfresh j (by simp [joinIds, hj]) rid
      · exact um_connect hum (fun rid => hfresh c.id (by simp [joinIds]) rid)
    | leave c =>
      refine ih (disconnect R c) (by simpa [joinIds] using hnd) ?_ ?_
      · intro j hj rid
        exact not_inRoom_disconnect (hfresh j (by simpa [joinIds] using hj) rid)
      · exact um_disconnect hum

theorem nonEmptyRooms_empty : NonEmptyRooms emptyRegistry := by
  intro rid r hr
  simp [lookupRoom, emptyRegistry] at hr

theorem nonEmpty_connect {R : Registry} (hR : NonEmptyRooms R) (c : Conn) :
    NonEmptyRooms (connect R c) := by
  intro rid r hr
  by_cases hrid : rid = c.roomId
  · subst hrid
    have hl : lookupRoom (connect R c) c.roomId =
        some (joinRoom ((lookupRoom R c.roomId).getD ⟨[], []⟩) c) :=
      lookup_setRoom_self R c.roomId _
    rw [hl] at hr
    obtain rfl := Option.some.inj hr
    rw [joinRoom]
    split
    · exact Or.inl (addId_ne_nil _ _)
    · exact Or.inr (addId_ne_nil _ _)
  · rw [connect] at hr
    rw [lookup_setRoom_ne _ _ _ _ hrid] at hr
    exact hR rid r hr

theorem nonEmpty_disconnect {R : Registry} (hR : NonEmptyRooms R) (c : Conn) :
    NonEmptyRooms (disconnect R c) := by
  intro rid r hr
  cases hRc : lookupRoom R c.roomId with
  | none =>
    have hd : disconnect R c = R := by simp [disconnect, hRc]
    rw [hd] at hr
    exact hR rid r hr
  | some room =>
    by_cases he : ((leaveRoom room c).viewers.isEmpty &&
        (leaveRoom room c).controllers.isEmpty) = true
    · have hd : disconnect R c = removeRoom R c.roomId := by
        simp [disconnect, hRc, he]
      rw [hd] at hr
      by_cases hrid : rid = c.roomId
      · subst hrid
        rw [lookup_removeRoom_self] at hr
        cases hr
      · rw [lookup_removeRoom_ne _ _ _ hrid] at hr
        exact hR rid r hr
    · have he' : ((leaveRoom room c).viewers.isEmpty &&
          (leaveRoom room c).controllers.isEmpty) = false := by
        revert he
        cases ((leaveRoom room c).viewers.isEmpty &&
          (leaveRoom room c).controllers.isEmpty) <;> simp
      have hd : disconnect R c = setRoom R c.roomId (leaveRoom room c) := by
        simp [disconnect, hRc, he']
      rw [hd] at hr
      by_cases hrid : rid = c.roomId
      · subst hrid
        rw [lookup_setRoom_self] at hr
        obtain rfl := Option.some.inj hr
        rcases and_false_cases he' with h1 | h1
        · exact Or.inl (ne_nil_of_isEmpty_false h1)
        · exact Or.inr (ne_nil_of_isEmpty_false h1)
      · rw [lookup_setRoom_ne _ _ _ _ hrid] at hr
        exact hR rid r hr

theorem nonEmpty_applyEvents (tr : List Event) :
    ∀ R : Registry, NonEmptyRooms R → NonEmptyRooms (applyEvents tr R) := by
  induction tr with
  | nil => intro R h; exact h
  | cons e es ih =>
    intro R h
    cases e with
    | join c => exact ih (connect R c) (nonEmpty_connect h c)
    | leave c => exact ih (disconnect R c) (nonEmpty_disconnect h c)

theorem mem_fanout_controller {R : Registry} {isOp : Nat → Bool} {a msg : String}
    {d : Delivery} (h : d ∈ fanout R isOp "controller" a msg) :
    ∃ ra, lookupRoom R a = some ra ∧ d.dest ∈ ra.viewers := by
  cases hR : lookupRoom R a with
  | none =>
    have hf : fanout R isOp "controller" a msg = [] := by simp [fanout, hR]
    rw [hf] at h
    simp at h
  | some ra =>
    have hf : fanout R isOp "controller" a msg =
        (ra.viewers.filter isOp).map (fun i => ⟨i, msg⟩) := by
      simp [fanout, hR]
    rw [hf] at h
    obtain ⟨i, hi, rfl⟩ := List.mem_map.1 h
    exact ⟨ra, rfl, List.mem_of_mem_filter hi⟩

/-- C1: the spec requires byte-exact passthrough of non-HTML upstream bodies
with the deny-listed headers removed, but the handler reads the body twice
(resp.text() first, then resp.arrayBuffer() on the non-HTML path), so the
second read throws and the catch answers 502 instead of passing the bytes
through. This theorem evaluates the handler at an upstream image response:
the status is 502, the body is the proxy error text rather than the upstream
bytes, and only the deny-list filtering of headers still happened. -/
theorem binary_passthrough_code_bug :
    (proxyHandler (some "http://example.com/a.png") (ParseOutcome.ok "http://example.com")
        (FetchOutcome.ok pngResp)).status = 502 ∧
    (proxyHandler (some "http://example.com/a.png") (ParseOutcome.ok "http://example.com")
        (FetchOutcome.ok pngResp)).body = ("Proxy fetch failed: " ++ bodyUnusableMsg).data ∧
    (proxyHandler (some "http://example.com/a.png") (ParseOutcome.ok "http://example.com")
        (FetchOutcome.ok pngResp)).body ≠ pngResp.body ∧
    (proxyHandler (some "http://example.com/a.png") (ParseOutcome.ok "http://example.com")
        (FetchOutcome.ok pngResp)).headers = [("Content-Type", "image/png")] := by
  refine ⟨?_, ?_, ?_, ?_⟩ <;> decide

/-- C2 counterexample: a nonempty url value whose parse fails (new URL throws,
as for the string consisting of a single colon) is answered with status 502,
which is not a 4xx client error, refuting the claim that a parse failure is
surfaced as a 4xx distinct from the 5xx upstream-failure response. -/
theorem unparsable_url_counterexample :
    (proxyHandler (some ":") (ParseOutcome.fail "Invalid URL")
        (FetchOutcome.fail "unused")).status = 502 ∧
    ¬ ((proxyHandler (some ":") (ParseOutcome.fail "Invalid URL")
        (FetchOutcome.fail "unused")).status < 500) := by
  refine ⟨?_, ?_⟩ <;> decide

/-- C2 (amended): GET /proxy responds 400 iff the url parameter is missing or
empty; a nonempty url whose parse fails is caught by the same try/catch as
upstream failures and answered 502, not with a 4xx. -/
theorem url_param_status (q : Option String) (parsed : ParseOutcome)
    (fetched fetched2 : FetchOutcome) (t m : String) (ht : t ≠ "") :
    ((proxyHandler q parsed fetched).status = 400 ↔ (q = none ∨ q = some "")) ∧
    (proxyHandler (some t) (ParseOutcome.fail m) fetched2).status = 502 := by
  constructor
  · cases q with
    | none => simp [proxyHandler]
    | some s =>
      by_cases hs : s = ""
      · subst hs
        simp [proxyHandler]
      · cases parsed with
        | fail m2 => simp [proxyHandler, hs]
        | ok o =>
          cases fetched with
          | fail m2 => simp [proxyHandler, hs]
          | ok resp =>
            simp only [proxyHandler, if_neg hs]
            split <;> simp [hs]
  · simp [proxyHandler, ht]

/-- C2 witness: the amended statement instantiated at a missing-parse input. -/
theorem url_param_status_witness :
    ((":" : String) ≠ "") ∧
    (((proxyHandler (some ":") (ParseOutcome.fail "Invalid URL")
        (FetchOutcome.fail "x")).status = 400 ↔
      ((some ":" : Option String) = none ∨ (some ":" : Option String) = some "")) ∧
      (proxyHandler (some ":") (ParseOutcome.fail "Invalid URL")
        (FetchOutcome.fail "x")).status = 502) :=
  ⟨by decide, url_param_status (some ":") (ParseOutcome.fail "Invalid URL")
    (FetchOutcome.fail "x") (FetchOutcome.fail "x") ":" "Invalid URL" (by decide)⟩

/-- C3: with controllers 1, 2 and viewers 3, 4 in room r (all open), a message
sent by controller 1 is delivered verbatim exactly to viewers 3 and 4 (so not
to controller 2), and a message sent by viewer 3 is delivered exactly to
controllers 1 and 2 wrapped in the serialized viewer envelope (so not to
viewer 4). -/
theorem relay_fanout_demo (msg : String) :
    fanout regC3 (fun _ => true) "controller" "r" msg = [⟨3, msg⟩, ⟨4, msg⟩] ∧
    fanout regC3 (fun _ => true) "viewer" "r" msg =
      [⟨1, viewerEnvelope msg⟩, ⟨2, viewerEnvelope msg⟩] :=
  ⟨rfl, rfl⟩

/-- C4: an HTML body in which the opening head-tag pattern matches nowhere is
returned unchanged by the rewrite, with no injection and no error. -/
theorem no_head_unchanged (body origin : List Char) (h : hasHeadTag body = false) :
    injectBase body origin = body :=
  injectAux_id (baseIns origin) body h

/-- C4 witness: a headless fragment is passed through unchanged. -/
theorem no_head_unchanged_witness :
    hasHeadTag "<p>hi</p>".data = false ∧
    injectBase "<p>hi</p>".data "https://e.com".data = "<p>hi</p>".data :=
  ⟨by decide, no_head_unchanged "<p>hi</p>".data "https://e.com".data (by decide)⟩

/-- C5: for a body in which the opening head-tag pattern (arbitrary attributes,
case-insensitive) matches somewhere, the rewrite splits the body at the first
match, keeps the matched tag, inserts the base element for the origin exactly
once immediately after it, and leaves everything after the insertion point
byte-identical; no earlier position matches the pattern. -/
theorem head_inject_first (body origin : List Char) (h : hasHeadTag body = true) :
    ∃ pre t a, body = pre ++ (t ++ a) ∧
      injectBase body origin = pre ++ (t ++ (baseIns origin ++ a)) ∧
      (∀ i, i < pre.length → matchAt (body.drop i) = none) ∧
      matchAt (t ++ a) = some (t, a) :=
  injectAux_first (baseIns origin) body h

/-- C5 witness: a head tag with an attribute and mixed case gets the base
element injected right after it. -/
theorem head_inject_first_witness :
    hasHeadTag "<HeAd id=x>rest".data = true ∧
    (∃ pre t a, "<HeAd id=x>rest".data = pre ++ (t ++ a) ∧
      injectBase "<HeAd id=x>rest".data "https://e.com".data =
        pre ++ (t ++ (baseIns "https://e.com".data ++ a)) ∧
      (∀ i, i < pre.length → matchAt ("<HeAd id=x>rest".data.drop i) = none) ∧
      matchAt (t ++ a) = some (t, a)) :=
  ⟨by decide, head_inject_first "<HeAd id=x>rest".data "https://e.com".data (by decide)⟩

/-- C6 counterexample: a connection with declared type banana in a room with
one open viewer has its message delivered to nobody, while a controller in the
same room would reach the viewer; so an unknown role is not treated as a
controller for forwarding purposes. -/
theorem unknown_role_counterexample :
    fanout regC6 (fun _ => true) "banana" "r" "hi" = [] ∧
    fanout regC6 (fun _ => true) "controller" "r" "hi" = [⟨2, "hi"⟩] ∧
    fanout regC6 (fun _ => true) "banana" "r" "hi" ≠
      fanout regC6 (fun _ => true) "controller" "r" "hi" := by
  refine ⟨?_, ?_, ?_⟩ <;> decide

/-- C6 (amended): a connection whose declared type is neither controller nor
viewer is registered in the controllers set of its room (it defaults to the
controller side for membership), but its inbound messages are forwarded to
nobody: only the literal type controller, which is also the default when the
type parameter is absent, triggers forwarding to viewers. -/
theorem unknown_role_amended (R : Registry) (c : Conn) (isOp : Nat → Bool)
    (msg : String) (hv : c.type ≠ "viewer") (hc : c.type ≠ "controller") :
    (∃ r, lookupRoom (connect R c) c.roomId = some r ∧ c.id ∈ r.controllers) ∧
    fanout (connect R c) isOp c.type c.roomId msg = [] := by
  constructor
  · refine ⟨joinRoom ((lookupRoom R c.roomId).getD ⟨[], []⟩) c,
      lookup_setRoom_self R c.roomId _, ?_⟩
    rw [joinRoom, if_neg hv]
    exact self_mem_addId _ _
  · cases hl : lookupRoom (connect R c) c.roomId with
    | none => simp [fanout, hl]
    | some room => simp [fanout, hl, hv, hc]

/-- C6 witness: the amended statement instantiated at a banana-typed
connection joining an empty registry. -/
theorem unknown_role_amended_witness :
    (("banana" : String) ≠ "viewer") ∧ (("banana" : String) ≠ "controller") ∧
    ((∃ r, lookupRoom (connect emptyRegistry ⟨1, "banana", "r"⟩)
        (Conn.mk 1 "banana" "r").roomId = some r ∧
        (Conn.mk 1 "banana" "r").id ∈ r.controllers) ∧
      fanout (connect emptyRegistry ⟨1, "banana", "r"⟩) (fun _ => true)
        (Conn.mk 1 "banana" "r").type (Conn.mk 1 "banana" "r").roomId "m" = []) :=
  ⟨by decide, by decide,
    unknown_role_amended emptyRegistry ⟨1, "banana", "r"⟩ (fun _ => true) "m"
      (by decide) (by decide)⟩

/-- C7: for every sequence of joins and leaves across both roles, a room key
is mapped in the registry iff the mapped room has at least one member in one
of its two sets; hence after the last member leaves, a lookup of the key
finds no room. -/
theorem room_lifecycle (tr : List Event) (rid : String) :
    (lookupRoom (applyEvents tr emptyRegistry) rid).isSome = true ↔
      ∃ r, lookupRoom (applyEvents tr emptyRegistry) rid = some r ∧
        (r.viewers ≠ [] ∨ r.controllers ≠ []) := by
  constructor
  · intro h
    obtain ⟨r, hr⟩ := Option.isSome_iff_exists.1 h
    exact ⟨r, hr, nonEmpty_applyEvents tr emptyRegistry nonEmptyRooms_empty rid r hr⟩
  · rintro ⟨r, hr, _⟩
    simp [hr]

/-- C8: whatever the query parameter, parse outcome and fetch outcome, every
header copied onto the proxy response has a name that is not on the deny list,
compared case-insensitively, regardless of case or duplication in the
upstream header mapping. -/
theorem deny_list_filtered (q : Option String) (parsed : ParseOutcome)
    (fetched : FetchOutcome) :
    ((proxyHandler q parsed fetched).headers.all allowedHeader) = true := by
  cases q with
  | none => rfl
  | some s =>
    by_cases hs : s = ""
    · subst hs
      rfl
    · cases parsed with
      | fail m => simp [proxyHandler, hs]
      | ok o =>
        cases fetched with
        | fail m => simp [proxyHandler, hs]
        | ok resp =>
          have hmain : ((setHeader (copyHeaders resp.headers) "Content-Type"
              ((headersGet resp.headers "content-type").getD
                "text/html; charset=utf-8")).all allowedHeader) = true :=
            all_allowed_setHeader _ _ _ (all_allowed_copyHeaders resp.headers)
              (allowedHeader_contentType _)
          simp only [proxyHandler, if_neg hs]
          split <;> exact hmain

/-- C9: in every registry reachable by a trace of joins and leaves with
distinct connection ids, a message fanned out by a controller in room a is
never delivered to a connection registered as a viewer of a different room
b. -/
theorem cross_room_isolation (tr : List Event) (isOp : Nat → Bool)
    (a b msg : String) (d : Delivery) (rb : Room)
    (hnd : (joinIds tr).Nodup) (hab : a ≠ b)
    (hd : d ∈ fanout (applyEvents tr emptyRegistry) isOp "controller" a msg)
    (hrb : lookupRoom (applyEvents tr emptyRegistry) b = some rb) :
    d.dest ∉ rb.viewers := by
  intro hmem
  obtain ⟨ra, hra, hva⟩ := mem_fanout_controller hd
  have hum : UniqueMembership (applyEvents tr emptyRegistry) :=
    um_applyEvents tr emptyRegistry hnd
      (fun j _ rid h => by
        obtain ⟨r, hr, _⟩ := h
        simp [lookupRoom, emptyRegistry] at hr)
      (fun i x y hx _ => False.elim (by
        obtain ⟨r, hr, _⟩ := hx
        simp [lookupRoom, emptyRegistry] at hr))
  exact hab (hum d.dest a b ⟨ra, hra, Or.inl hva⟩ ⟨rb, hrb, Or.inl hmem⟩)

/-- C9 witness: the isolation theorem instantiated at a trace placing a
controller and a viewer in room a and a second viewer in room b. -/
theorem cross_room_isolation_witness :
    (joinIds trC9).Nodup ∧ (("a" : String) ≠ "b") ∧
    (⟨2, "m"⟩ : Delivery) ∈
      fanout (applyEvents trC9 emptyRegistry) (fun _ => true) "controller" "a" "m" ∧
    lookupRoom (applyEvents trC9 emptyRegistry) "b" = some ⟨[3], []⟩ ∧
    (Delivery.mk 2 "m").dest ∉ (Room.mk [3] []).viewers :=
  ⟨by decide, by decide, by decide, by decide,
    cross_room_isolation trC9 (fun _ => true) "a" "b" "m" ⟨2, "m"⟩ ⟨[3], []⟩
      (by decide) (by decide) (by decide) (by decide)⟩

/-- C10: the claim that every fetch completing without throwing is relayed
with status 200 fails on the code: a JSON upstream response (here with
upstream status 404) is answered 502 because of the double body read, while
an HTML upstream response is indeed answered 200 even when its own status is
500, so the upstream status itself is never propagated. -/
theorem upstream_status_code_bug :
    (proxyHandler (some "http://e.com/x") (ParseOutcome.ok "http://e.com")
        (FetchOutcome.ok jsonResp)).status = 502 ∧
    ¬ ((proxyHandler (some "http://e.com/x") (ParseOutcome.ok "http://e.com")
        (FetchOutcome.ok jsonResp)).status = 200) ∧
    (proxyHandler (some "http://e.com/x") (ParseOutcome.ok "http://e.com")
        (FetchOutcome.ok htmlResp500)).status = 200 := by
  refine ⟨?_, ?_, ?_⟩ <;> decide

end WebNews
